import Mathlib

/-!
Shallow embedding of the Roomba blob-detection pipeline of
`src/src/RoombaBlobDetector.cpp` (namespace `iarc7_vision`), together with
proofs settling the frozen claims about its specification.

Modelling conventions:
* 8-bit machine pixel channels and the integer HSV thresholds of
  `RoombaEstimatorSettings` are modelled as `Int`.
* The floating-point moment and geometry arithmetic of `boundMask` is exact
  field arithmetic; it is carried out in `ℚ` (the concrete inputs of every
  claim are rational and no rounding-sensitive boundary is involved), while
  quantities produced by transcendental library calls (`std::atan2`,
  `std::cos`, `std::sin`, `std::fmod`) live in `ℝ`.
* External library calls that the repository does not define
  (`cv::findContours`, the `Eigen` eigensolver, the rasterisation of a
  rotated sampling window) are either abstracted as explicit function
  parameters or modelled from their documented behaviour; each such
  definition carries a comment saying what it models.
* `cv_utils::inRange` and `cv_utils::sumPatch` are repository code whose
  implementation is not under `src/` (only the header is included); they are
  modelled from the spec, as their doc comments state.
-/

namespace Iarc7Vision

/-- A 3-channel colour sample (each channel an 8-bit value in the real
program); channel order for raw pixels is R,G,B and after conversion
H,S,V. -/
abbrev Pix := ℤ × ℤ × ℤ

/-- A frame: fixed-size 2D grid of 3-channel samples (`cv::cuda::GpuMat` of
type `CV_8UC3`).  `px x y` reads column `x`, row `y`. -/
structure Img where
  rows : ℤ
  cols : ℤ
  px : ℤ → ℤ → Pix

/-- A binary mask (`CV_8U`), same spatial dimensions as the frame it is
derived from. -/
structure MaskImg where
  rows : ℤ
  cols : ℤ
  px : ℤ → ℤ → Bool

/-- The HSV-slice and morphology fields of `RoombaEstimatorSettings`
(`src/include/iarc7_vision/RoombaEstimatorSettings.hpp`); only the fields
this pipeline reads are carried. -/
structure RoombaEstimatorSettings where
  hsv_slice_h_green_min : ℤ
  hsv_slice_h_green_max : ℤ
  hsv_slice_h_red1_min : ℤ
  hsv_slice_h_red1_max : ℤ
  hsv_slice_h_red2_min : ℤ
  hsv_slice_h_red2_max : ℤ
  hsv_slice_s_min : ℤ
  hsv_slice_s_max : ℤ
  hsv_slice_v_min : ℤ
  hsv_slice_v_max : ℤ
  morphology_size : ℕ
  morphology_iterations : ℕ

/-- Modelled from the spec: `cv_utils::inRange` (declared in
`iarc7_vision/cv_utils.hpp`, implementation not under `src/`) — per-channel
inclusive range test of a pixel against a lower and an upper bound, the
per-pixel behaviour of OpenCV's `cv::inRange` used on the CPU side in
`checkCorners`. -/
def inRange3 (lo hi p : Pix) : Bool :=
  decide (lo.1 ≤ p.1 ∧ p.1 ≤ hi.1) &&
  decide (lo.2.1 ≤ p.2.1 ∧ p.2.1 ≤ hi.2.1) &&
  decide (lo.2.2 ≤ p.2.2 ∧ p.2.2 ≤ hi.2.2)

/-- Lower bound of the green HSV slice (`thresholdFrame`, lines 50-52). -/
def greenLo (s : RoombaEstimatorSettings) : Pix :=
  (s.hsv_slice_h_green_min, s.hsv_slice_s_min, s.hsv_slice_v_min)

/-- Upper bound of the green HSV slice (`thresholdFrame`, lines 53-55). -/
def greenHi (s : RoombaEstimatorSettings) : Pix :=
  (s.hsv_slice_h_green_max, s.hsv_slice_s_max, s.hsv_slice_v_max)

/-- Lower bound of the upper red HSV slice. -/
def red1Lo (s : RoombaEstimatorSettings) : Pix :=
  (s.hsv_slice_h_red1_min, s.hsv_slice_s_min, s.hsv_slice_v_min)

/-- Upper bound of the upper red HSV slice. -/
def red1Hi (s : RoombaEstimatorSettings) : Pix :=
  (s.hsv_slice_h_red1_max, s.hsv_slice_s_max, s.hsv_slice_v_max)

/-- Lower bound of the lower red HSV slice. -/
def red2Lo (s : RoombaEstimatorSettings) : Pix :=
  (s.hsv_slice_h_red2_min, s.hsv_slice_s_min, s.hsv_slice_v_min)

/-- Upper bound of the lower red HSV slice. -/
def red2Hi (s : RoombaEstimatorSettings) : Pix :=
  (s.hsv_slice_h_red2_max, s.hsv_slice_s_max, s.hsv_slice_v_max)

/-- Model of `dst.create(image.rows, image.cols, CV_8U)` (line 43): the caller's
buffer is kept when its geometry already matches and reallocated (with
unspecified fresh contents, here `false`) otherwise. -/
def createBuf (rows cols : ℤ) (d : MaskImg) : MaskImg :=
  if d.rows = rows ∧ d.cols = cols then d else ⟨rows, cols, fun _ _ => false⟩

/-- Model of `dst.setTo(cv::Scalar(0, 0, 0, 0))` (line 44). -/
def setToZero (m : MaskImg) : MaskImg :=
  ⟨m.rows, m.cols, fun _ _ => false⟩

/-- Model of `cv::cuda::bitwise_or(dst, range_mask, dst)` with a range-membership
mask as second operand (lines 57, 67, 77). -/
def orInto (m : MaskImg) (g : ℤ → ℤ → Bool) : MaskImg :=
  ⟨m.rows, m.cols, fun x y => m.px x y || g x y⟩

/-- The mask accumulated by `thresholdFrame` before the morphological
opening (lines 43-77): the output buffer is created at the frame's
geometry, cleared, and the three HSV slice masks (green, upper red, lower
red) are OR-ed into it in order.  `rgb2hsv` abstracts
`cv::cuda::cvtColor(..., COLOR_RGB2HSV)` applied per pixel. -/
def thresholdPre (rgb2hsv : Pix → Pix) (s : RoombaEstimatorSettings)
    (img : Img) (dst : MaskImg) : MaskImg :=
  let hsvp : ℤ → ℤ → Pix := fun x y => rgb2hsv (img.px x y)
  let d0 := setToZero (createBuf img.rows img.cols dst)
  let d1 := orInto d0 (fun x y => inRange3 (greenLo s) (greenHi s) (hsvp x y))
  let d2 := orInto d1 (fun x y => inRange3 (red1Lo s) (red1Hi s) (hsvp x y))
  orInto d2 (fun x y => inRange3 (red2Lo s) (red2Hi s) (hsvp x y))

/-- One erosion pass with a `k`×`k` square structuring element anchored at
its centre: a pixel survives iff every pixel under the element is set. -/
def erodeF (k : ℕ) (f : ℤ → ℤ → Bool) : ℤ → ℤ → Bool :=
  fun x y =>
    (List.range k).all fun dx =>
      (List.range k).all fun dy =>
        f (x + (dx : ℤ) - (k / 2 : ℕ)) (y + (dy : ℤ) - (k / 2 : ℕ))

/-- One dilation pass with the same element: a pixel is set iff some pixel
under the element is set. -/
def dilateF (k : ℕ) (f : ℤ → ℤ → Bool) : ℤ → ℤ → Bool :=
  fun x y =>
    (List.range k).any fun dx =>
      (List.range k).any fun dy =>
        f (x + (dx : ℤ) - (k / 2 : ℕ)) (y + (dy : ℤ) - (k / 2 : ℕ))

/-- Morphological opening, `iters` erosions followed by `iters` dilations
(`cv::cuda::createMorphologyFilter(cv::MORPH_OPEN, ...)` with iteration
count `iters`, applied at lines 79-88); border pixels read the total pixel
function, border-extension policy being irrelevant to every claim. -/
def openF (iters k : ℕ) (f : ℤ → ℤ → Bool) : ℤ → ℤ → Bool :=
  (dilateF k)^[iters] ((erodeF k)^[iters] f)

/-- Model of `RoombaBlobDetector::thresholdFrame` (lines 35-91): HSV conversion,
three-slice OR accumulation into the caller-supplied destination buffer,
then morphological opening in place. -/
def thresholdFrame (rgb2hsv : Pix → Pix) (s : RoombaEstimatorSettings)
    (img : Img) (dst : MaskImg) : MaskImg :=
  let pre := thresholdPre rgb2hsv s img dst
  ⟨pre.rows, pre.cols, openF s.morphology_iterations s.morphology_size pre.px⟩

/-- An integer contour point delivered by `cv::findContours`. -/
abbrev Pt := ℤ × ℤ

/-- Raw polygon moment accumulators of OpenCV's `contourMoments`
(`a00 … a02` in `modules/imgproc/src/moments.cpp`). -/
structure RawMoms where
  a00 : ℚ
  a10 : ℚ
  a01 : ℚ
  a20 : ℚ
  a11 : ℚ
  a02 : ℚ

/-- The zero accumulator. -/
def rawZero : RawMoms := ⟨0, 0, 0, 0, 0, 0⟩

/-- One edge step of OpenCV's `contourMoments` Green-theorem accumulation:
state is (previous point, accumulators); the edge runs from the previous
point to `p`. -/
def momStep (st : Pt × RawMoms) (p : Pt) : Pt × RawMoms :=
  let xp : ℚ := st.1.1
  let yp : ℚ := st.1.2
  let xi : ℚ := p.1
  let yi : ℚ := p.2
  let dxy := xp * yi - xi * yp
  let a := st.2
  (p, ⟨a.a00 + dxy,
       a.a10 + dxy * (xp + xi),
       a.a01 + dxy * (yp + yi),
       a.a20 + dxy * (xp * xp + xp * xi + xi * xi),
       a.a11 + dxy * (xp * (yp + yi + yp) + xi * (yp + yi + yi)),
       a.a02 + dxy * (yp * yp + yp * yi + yi * yi)⟩)

/-- Raw polygon moments of a contour: OpenCV starts the previous point at
the last contour point, so the accumulation runs over the closed polygon;
an empty contour yields all-zero accumulators. -/
def rawMoms (ct : List Pt) : RawMoms :=
  match ct.getLast? with
  | none => rawZero
  | some l => (ct.foldl momStep (l, rawZero)).2

/-- The spatial, central and normalized central moments of `cv::Moments`
that `boundMask` reads. -/
structure Moms where
  m00 : ℚ
  m10 : ℚ
  m01 : ℚ
  m20 : ℚ
  m11 : ℚ
  m02 : ℚ
  nu20 : ℚ
  nu11 : ℚ
  nu02 : ℚ

/-- Model of `cv::moments` on a point-vector contour: the raw Green-theorem
accumulators are scaled by ±1/2, ±1/6, ±1/12, ±1/24 (sign following the
accumulated signed area, so `m00` is the unsigned polygon area; all moments
stay zero when the signed area is zero), and `completeMomentState` derives
the central moments `mu = m − centroid·m` and the normalized
`nu = mu / m00²`. -/
def momentsOf (ct : List Pt) : Moms :=
  let a := rawMoms ct
  if a.a00 = 0 then ⟨0, 0, 0, 0, 0, 0, 0, 0, 0⟩ else
  let sg : ℚ := if a.a00 > 0 then 1 else -1
  let m00 := a.a00 * (sg / 2)
  let m10 := a.a10 * (sg / 6)
  let m01 := a.a01 * (sg / 6)
  let m20 := a.a20 * (sg / 12)
  let m11 := a.a11 * (sg / 24)
  let m02 := a.a02 * (sg / 12)
  let inv := if m00 = 0 then 0 else 1 / m00
  let cx := m10 * inv
  let cy := m01 * inv
  let mu20 := m20 - m10 * cx
  let mu11 := m11 - m10 * cy
  let mu02 := m02 - m01 * cy
  let s2 := inv * inv
  ⟨m00, m10, m01, m20, m11, m02, mu20 * s2, mu11 * s2, mu02 * s2⟩

/-- The symmetric 2×2 covariance assembled at lines 131-135, recorded as
(entry (0,0), entry (0,1) = entry (1,0), entry (1,1)) =
(`nu20`, `nu11`, `nu02`). -/
def covOf (m : Moms) : ℚ × ℚ × ℚ := (m.nu20, m.nu11, m.nu02)

/-- An eigensolver model: from the covariance triple to the two eigenvector
columns `(evector0, evector1)` of
`Eigen::SelfAdjointEigenSolver<Eigen::Matrix2d>` (line 137-139).  Kept as a
parameter because Eigen is an external library whose eigenvector signs are
implementation-defined; claims quantify over it where possible. -/
abbrev EigFn := ℚ × ℚ × ℚ → (ℚ × ℚ) × (ℚ × ℚ)

/-- The behaviour of `Eigen::SelfAdjointEigenSolver<Eigen::Matrix2d>` on a
matrix whose off-diagonal entry is exactly zero, traced from Eigen's
source: the 2×2 tridiagonalization copies the diagonal and sets the
eigenvector matrix to the identity, the QL iteration terminates at once
because the subdiagonal entry is exactly zero, and a final pass sorts the
eigenvalues increasingly, swapping the two identity columns when entry
(0,0) exceeds entry (1,1).  Inputs with a nonzero off-diagonal entry are
never passed to this model (its value there is arbitrary). -/
def eigDiag : EigFn := fun c =>
  if c.2.1 = 0 then
    (if c.1 ≤ c.2.2 then ((1, 0), (0, 1)) else ((0, 1), (1, 0)))
  else ((1, 0), (0, 1))

/-- Dot product of `Eigen::Vector2d`s (`evector.dot(p)`, lines 151-152). -/
def dotQ (a b : ℚ × ℚ) : ℚ := a.1 * b.1 + a.2 * b.2

/-- The projection-extent loop of lines 141-171: state `none` is
`have_point == false`; each contour point updates the running
(min x-projection, max x-projection, min y-projection, max y-projection). -/
def projStep (e0 e1 : ℚ × ℚ) (acc : Option (ℚ × ℚ × ℚ × ℚ)) (p : Pt) :
    Option (ℚ × ℚ × ℚ × ℚ) :=
  let dx := dotQ e0 ((p.1 : ℚ), (p.2 : ℚ))
  let dy := dotQ e1 ((p.1 : ℚ), (p.2 : ℚ))
  match acc with
  | none => some (dx, dx, dy, dy)
  | some (mnx, mxx, mny, mxy) =>
      some (min mnx dx, max mxx dx, min mny dy, max mxy dy)

/-- Model of `std::atan2(y, x)` over the reals: the argument of the complex number
`x + y·i`, with range `(-π, π]`. -/
noncomputable def atan2R (y x : ℝ) : ℝ := Complex.arg (x + y * Complex.I)

/-- The rectangle angle computed at line 183:
`-std::atan2(evector1(0), evector1(1)) * 180 / M_PI` for an eigenvector
`v = (evector1(0), evector1(1))`. -/
noncomputable def angleOf (v : ℚ × ℚ) : ℝ :=
  -atan2R ((v.1 : ℝ)) ((v.2 : ℝ)) * 180 / Real.pi

/-- Truncation toward zero, as C's `fmod` uses. -/
noncomputable def truncR (z : ℝ) : ℤ := if 0 ≤ z then ⌊z⌋ else ⌈z⌉

/-- Model of `std::fmod(x, y)`: `x - y * trunc(x / y)`. -/
noncomputable def fmodR (x y : ℝ) : ℝ := x - y * (truncR (x / y) : ℝ)

/-- Model of `cv::RotatedRect` as `boundMask` builds it (lines 180-183): centre and
size are exact rationals of the projection arithmetic, the angle is the
real produced by `atan2`. -/
structure RRect where
  cx : ℚ
  cy : ℚ
  w : ℚ
  h : ℚ
  angle : ℝ

/-- The rectangle fitted to one contour (lines 137-183): project every
contour point on both eigenvectors, take the projection extents
(`none` exactly when the contour has no points, i.e. `!have_point`), and
map centre, size and angle back. -/
noncomputable def fitRect (eig : EigFn) (ct : List Pt) : Option RRect :=
  let m := momentsOf ct
  let e := eig (covOf m)
  match ct.foldl (projStep e.1 e.2) none with
  | none => none
  | some (mnx, mxx, mny, mxy) =>
      some ⟨e.1.1 * ((mxx + mnx) / 2) + e.2.1 * ((mxy + mny) / 2),
            e.1.2 * ((mxx + mnx) / 2) + e.2.2 * ((mxy + mny) / 2),
            mxx - mnx,
            mxy - mny,
            angleOf e.2⟩

/-- The aspect-ratio rejection test of lines 185-186:
`rect.size.height > rect.size.width * 4 || rect.size.width > rect.size.height * 4`. -/
def aspectReject (r : RRect) : Bool :=
  decide (r.h > r.w * 4) || decide (r.w > r.h * 4)

/-- The per-contour processing of `boundMask` after the area filter has
passed: fit the rectangle, raise the `"Empty contour"` exception (line 174)
when the contour had no points, drop the rectangle when the aspect filter
rejects it, keep it otherwise. -/
noncomputable def afterArea (eig : EigFn) (ct : List Pt) :
    Except String (Option RRect) :=
  match fitRect eig ct with
  | none => Except.error "Empty contour"
  | some r => if aspectReject r then Except.ok none else Except.ok (some r)

/-- One loop iteration of `boundMask` (lines 126-190): compute the contour
moments, `continue` when the area lies outside the `[2000, 15000]` band
(line 129), otherwise run the post-area processing. -/
noncomputable def processContour (eig : EigFn) (ct : List Pt) :
    Except String (Option RRect) :=
  let m := momentsOf ct
  if m.m00 < 2000 ∨ m.m00 > 15000 then Except.ok none
  else afterArea eig ct

/-- Model of `std::vector::resize(0)` (line 124): the caller's vector is cleared. -/
def resize0 (l : List RRect) : List RRect := List.take 0 l

/-- The `boundMask` loop over the extracted contours, pushing each
surviving rectangle and propagating the thrown exception. -/
noncomputable def boundMaskGo (eig : EigFn) :
    List (List Pt) → List RRect → Except String (List RRect)
  | [], acc => Except.ok acc
  | ct :: rest, acc =>
      match processContour eig ct with
      | Except.error e => Except.error e
      | Except.ok none => boundMaskGo eig rest acc
      | Except.ok (some r) => boundMaskGo eig rest (acc ++ [r])

/-- Model of `RoombaBlobDetector::boundMask` (lines 94-191), taking the contour list
extracted by `cv::findContours` and the caller-supplied output vector with
its pre-existing contents. -/
noncomputable def boundMask (eig : EigFn) (ctrs : List (List Pt))
    (init : List RRect) : Except String (List RRect) :=
  boundMaskGo eig ctrs (resize0 init)

/-- A sampling window: a `cv::RotatedRect` with real centre, size and
angle, as built in `checkCorners`. -/
structure Window where
  cx : ℝ
  cy : ℝ
  sw : ℝ
  sh : ℝ
  ang : ℝ

/-- The corner sampling window of `checkCorners` for sign pair `(i, j)`,
`i, j ∈ {-1, 1}` (lines 199-216): size is `scale = 0.2` of the rectangle's
size at the rectangle's angle, and the centre is
`rect.center + i*offset_x + j*offset_y` with `offset_x` and `offset_y` the
half-offsets of the `(1 - scale)`-scaled rectangle along its two principal
directions. -/
noncomputable def cornerWindow (r : RRect) (i j : ℤ) : Window :=
  let rads := r.angle * Real.pi / 180
  let oxx := (r.w : ℝ) * (1 - 0.2) / 2 * Real.cos rads
  let oxy := (r.w : ℝ) * (1 - 0.2) / 2 * Real.sin rads
  let oyx := (r.h : ℝ) * (1 - 0.2) / 2 * (-Real.sin rads)
  let oyy := (r.h : ℝ) * (1 - 0.2) / 2 * Real.cos rads
  ⟨r.cx + i * oxx + j * oyx,
   r.cy + i * oxy + j * oyy,
   (r.w : ℝ) * 0.2,
   (r.h : ℝ) * 0.2,
   r.angle⟩

/-- The four corner booleans of one rectangle, obtained by a colour test
`sample` at the four corner windows; index pair `(i, j)` is the window at
`rect.center + i*offset_x + j*offset_y`, stored by the code in
`corners.at<uchar>((i+1)/2, (j+1)/2)`. -/
noncomputable def cornerBools (sample : Window → Bool) (r : RRect) :
    ℤ → ℤ → Bool :=
  fun i j => sample (cornerWindow r i j)

/-- The flip test of lines 264-267 on the four corner booleans
`corners.at(0,0)`, `corners.at(0,1)`, `corners.at(1,0)`, `corners.at(1,1)`:
`!c00 && !c01 && c10 && c11`. -/
def cornersFlip (c00 c01 c10 c11 : Bool) : Bool :=
  !c00 && !c01 && c10 && c11

/-- The angle update of lines 268-269: when the flip test holds, add 180
and reduce by `std::fmod(·, 360)`; otherwise leave the angle unchanged. -/
noncomputable def adjustAngle (flip : Bool) (θ : ℝ) : ℝ :=
  if flip then fmodR (θ + 180) 360 else θ

/-- The per-rectangle body of `checkCorners` (lines 201-270): sample the
four corners and update the angle in place; centre and size are not
written. -/
noncomputable def adjustRect (sample : Window → Bool) (r : RRect) : RRect :=
  let c := cornerBools sample r
  { r with
    angle := adjustAngle
      (cornersFlip (c (-1) (-1)) (c (-1) 1) (c 1 (-1)) (c 1 1)) r.angle }

/-- Model of `RoombaBlobDetector::checkCorners` (lines 193-272): every rectangle of
the list is updated in place by its own corner sampling. -/
noncomputable def checkCorners (sample : Window → Bool)
    (rects : List RRect) : List RRect :=
  rects.map (adjustRect sample)

/-- The pixels of a window's rasterised footprint that survive clipping to
the frame bounds.  `raster` abstracts the rasterisation of the rotated
window (an external geometric primitive); the clip keeps the pixels inside
`[0, cols) × [0, rows)`. -/
def footprint (raster : Window → List Pt) (img : Img) (w : Window) :
    List Pt :=
  (raster w).filter fun p =>
    decide (0 ≤ p.1) && decide (p.1 < img.cols) &&
    decide (0 ≤ p.2) && decide (p.2 < img.rows)

/-- Channel-wise rational average of the frame colours over a nonempty
pixel list. -/
def avgPix (img : Img) (l : List Pt) : ℚ × ℚ × ℚ :=
  let s := l.foldl
    (fun (a : ℚ × ℚ × ℚ) p =>
      (a.1 + ((img.px p.1 p.2).1 : ℚ),
       a.2.1 + ((img.px p.1 p.2).2.1 : ℚ),
       a.2.2 + ((img.px p.1 p.2).2.2 : ℚ)))
    (0, 0, 0)
  (s.1 / l.length, s.2.1 / l.length, s.2.2 / l.length)

/-- Modelled from the spec: `cv_utils::sumPatch` (declared in
`iarc7_vision/cv_utils.hpp`, implementation not under `src/`) — "average
the raw color over the window's pixel footprint (clipping the window to
valid frame bounds first — if no pixels remain after clipping, treat the
corner as non-marker-colored)": the average over the clipped footprint,
`none` when no pixel remains. -/
def sumPatch (raster : Window → List Pt) (img : Img) (w : Window) :
    Option (ℚ × ℚ × ℚ) :=
  let fp := footprint raster img w
  if fp = [] then none else some (avgPix img fp)

/-- The three-slice membership test run on the averaged corner patch
(lines 223-257): the 1×1 mask starts at zero and the green, upper-red and
lower-red `cv::inRange` results are OR-ed into it. -/
def patchGood (s : RoombaEstimatorSettings) (p : Pix) : Bool :=
  ((false || inRange3 (greenLo s) (greenHi s) p)
      || inRange3 (red1Lo s) (red1Hi s) p)
    || inRange3 (red2Lo s) (red2Hi s) p

/-- One corner's boolean in `checkCorners` (lines 216-260): the clipped
patch average (when it exists) is quantised and converted to HSV — both
steps abstracted into `hsvQ`, standing for the `Vec3b` store plus
`cv::cvtColor(..., COLOR_RGB2HSV)` on the 1×1 matrix — and tested against
the three colour slices; an empty footprint yields a non-marker corner. -/
def cornerColored (hsvQ : ℚ × ℚ × ℚ → Pix) (s : RoombaEstimatorSettings)
    (raster : Window → List Pt) (img : Img) (w : Window) : Bool :=
  match sumPatch raster img w with
  | none => false
  | some c => patchGood s (hsvQ c)

/-- A fresh local mask buffer (the local `cv::cuda::GpuMat mask` of
`detect`, line 277). -/
def freshMask : MaskImg := ⟨0, 0, fun _ _ => false⟩

/-- Model of `RoombaBlobDetector::detect` (lines 274-295): threshold the frame into
a fresh local mask, extract and filter the bounding rectangles into the
caller's vector, then resolve the corner orientation on the original
frame.  `contoursOf` abstracts `cv::findContours` on the downloaded
mask. -/
noncomputable def detect (rgb2hsv : Pix → Pix) (hsvQ : ℚ × ℚ × ℚ → Pix)
    (raster : Window → List Pt) (eig : EigFn)
    (contoursOf : MaskImg → List (List Pt))
    (s : RoombaEstimatorSettings) (img : Img) (init : List RRect) :
    Except String (List RRect) :=
  let mask := thresholdFrame rgb2hsv s img freshMask
  match boundMask eig (contoursOf mask) init with
  | Except.error e => Except.error e
  | Except.ok rects =>
      Except.ok (checkCorners (cornerColored hsvQ s raster img) rects)

/-- The spec's flip condition, stated from its words for comparison with
the code's `cornersFlip`: "one diagonal pair of corners is both
non-marker-colored while the opposite diagonal pair is both
marker-colored".  The corner at sign pair `(i, j)` sits at
`center + i*offset_x + j*offset_y`, so the two diagonal pairs are
`{(-1,-1), (1,1)}` (booleans `c00`, `c11`) and `{(-1,1), (1,-1)}`
(booleans `c01`, `c10`). -/
def specFlipDiagonal (c00 c01 c10 c11 : Bool) : Bool :=
  (!c00 && !c11 && c01 && c10) || (!c01 && !c10 && c00 && c11)

/-- Boundary contour of a filled axis-aligned 101×31-pixel rectangle with
corners (0,0) and (100,30), as `cv::findContours` traces it: unsigned
polygon area 3000 (inside the accepted band), aspect 100:30 (below 4),
diagonal covariance with the larger variance along x. -/
def ct0 : List Pt := [(0, 0), (0, 30), (100, 30), (100, 0)]

/-- The rectangle `boundMask` fits to `ct0`: centre (50,15), size 30×100,
angle `-atan2(1, 0)·180/π`. -/
noncomputable def rC3 : RRect := ⟨50, 15, 30, 100, angleOf (1, 0)⟩

/-- A concrete settings value (green hue 40-80, red hues 0-10 and 170-180,
saturation and value 50-255, 3×3 opening once). -/
def s0 : RoombaEstimatorSettings := ⟨40, 80, 0, 10, 170, 180, 50, 255, 50, 255, 3, 1⟩

/-- A concrete all-black 101×31 frame. -/
def img0 : Img := ⟨31, 101, fun _ _ => (0, 0, 0)⟩

/-- A rasterisation producing no pixels for any window (every corner
window clips to an empty footprint). -/
def rasterEmpty : Window → List Pt := fun _ => []

/-- A concrete quantise-and-convert function for corner patches. -/
def hsvQ0 : ℚ × ℚ × ℚ → Pix := fun _ => (0, 0, 0)

/-! ### Helper lemmas shared by the claim theorems -/

/-- Creating the output buffer at the frame's geometry and clearing it
erases every trace of the caller's buffer. -/
lemma setToZero_createBuf (rows cols : ℤ) (d : MaskImg) :
    setToZero (createBuf rows cols d) = ⟨rows, cols, fun _ _ => false⟩ := by
  rw [createBuf]
  split
  · next h => rw [setToZero, h.1, h.2]
  · rfl

/-- The angle written at line 183 always lies in `[-180, 180)`: it is
`-atan2 · 180/π` and `atan2` has range `(-π, π]`. -/
lemma angleOf_range (v : ℚ × ℚ) :
    -180 ≤ angleOf v ∧ angleOf v < 180 := by
  have hπ : (0 : ℝ) < Real.pi := Real.pi_pos
  set z : ℂ := ((v.2 : ℝ) : ℂ) + ((v.1 : ℝ) : ℂ) * Complex.I with hz
  have h1 : Complex.arg z ≤ Real.pi := Complex.arg_le_pi z
  have h2 : -Real.pi < Complex.arg z := Complex.neg_pi_lt_arg z
  have hd1 : Complex.arg z / Real.pi ≤ 1 := (div_le_one hπ).mpr h1
  have hd2 : -1 < Complex.arg z / Real.pi := by
    rw [lt_div_iff₀ hπ]
    linarith
  have he : angleOf v = -(Complex.arg z / Real.pi) * 180 := by
    rw [angleOf, atan2R]
    ring
  constructor
  · rw [he]; nlinarith
  · rw [he]; nlinarith

/-- `std::fmod(x, 360)` is the identity on `[0, 360)`. -/
lemma fmodR_eq_self {x : ℝ} (h0 : 0 ≤ x) (h1 : x < 360) :
    fmodR x 360 = x := by
  have hq : (0 : ℝ) ≤ x / 360 := by positivity
  have hfl : ⌊x / 360⌋ = 0 := by
    rw [Int.floor_eq_zero_iff]
    constructor
    · exact hq
    · rw [div_lt_one (by norm_num : (0:ℝ) < 360)]
      simpa using h1
  rw [fmodR, truncR, if_pos hq, hfl]
  norm_num

/-- The angle update of `checkCorners` maps `[-180, 180)` into
`[-180, 360)`. -/
lemma adjustAngle_range (flip : Bool) {θ : ℝ}
    (h : -180 ≤ θ ∧ θ < 180) :
    -180 ≤ adjustAngle flip θ ∧ adjustAngle flip θ < 360 := by
  cases flip with
  | false =>
      rw [adjustAngle, if_neg (by simp)]
      exact ⟨h.1, by linarith [h.2]⟩
  | true =>
      rw [adjustAngle, if_pos rfl, fmodR_eq_self (by linarith [h.1]) (by linarith [h.2])]
      constructor <;> linarith [h.1, h.2]

/-- Every fitted rectangle's angle is `angleOf` of some eigenvector. -/
lemma fitRect_angle {eig : EigFn} {ct : List Pt} {r : RRect}
    (h : fitRect eig ct = some r) : ∃ v, r.angle = angleOf v := by
  rw [fitRect] at h
  rcases hf : List.foldl
      (projStep (eig (covOf (momentsOf ct))).1 (eig (covOf (momentsOf ct))).2)
      none ct with _ | q
  · rw [hf] at h
    simp at h
  · obtain ⟨mnx, mxx, mny, mxy⟩ := q
    rw [hf] at h
    simp only [Option.some.injEq] at h
    exact ⟨(eig (covOf (momentsOf ct))).2, by rw [← h]⟩

/-- A rectangle emitted by the per-contour processing is the fitted one. -/
lemma processContour_some {eig : EigFn} {ct : List Pt} {r : RRect}
    (h : processContour eig ct = Except.ok (some r)) :
    fitRect eig ct = some r := by
  rw [processContour] at h
  split at h
  · simp at h
  · rw [afterArea] at h
    rcases hf : fitRect eig ct with _ | r'
    · rw [hf] at h
      simp at h
    · rw [hf] at h
      simp only [] at h
      by_cases ha : aspectReject r' = true
      · rw [if_pos ha] at h
        simp at h
      · rw [if_neg ha] at h
        simpa using h

/-- Every rectangle in a successful `boundMask` loop result either came in
through the accumulator or carries an `atan2`-derived angle. -/
lemma boundMaskGo_ok_mem {eig : EigFn} :
    ∀ {ctrs : List (List Pt)} {acc res : List RRect},
      boundMaskGo eig ctrs acc = Except.ok res →
      ∀ r ∈ res, r ∈ acc ∨ ∃ v, r.angle = angleOf v := by
  intro ctrs
  induction ctrs with
  | nil =>
      intro acc res h r hr
      rw [boundMaskGo] at h
      cases h
      exact Or.inl hr
  | cons ct rest ih =>
      intro acc res h r hr
      rw [boundMaskGo] at h
      rcases hp : processContour eig ct with e | o
      · rw [hp] at h
        cases h
      · rcases o with _ | r'
        · rw [hp] at h
          exact ih h r hr
        · rw [hp] at h
          rcases ih h r hr with hmem | hang
          · rcases List.mem_append.mp hmem with h1 | h2
            · exact Or.inl h1
            · have : r = r' := by simpa using h2
              subst this
              exact Or.inr (fitRect_angle (processContour_some hp))
          · exact Or.inr hang

/-- With the empty rasterisation every corner is non-marker-coloured. -/
lemma cornerColored_rasterEmpty (hsvQ : ℚ × ℚ × ℚ → Pix)
    (s : RoombaEstimatorSettings) (img : Img) (w : Window) :
    cornerColored hsvQ s rasterEmpty img w = false := by
  rw [cornerColored, sumPatch]
  simp [footprint, rasterEmpty]

/-- The fit of the concrete contour `ct0`. -/
lemma fitRect_ct0 : fitRect eigDiag ct0 = some rC3 := by
  norm_num [fitRect, momentsOf, rawMoms, momStep, rawZero, ct0, covOf,
    eigDiag, projStep, dotQ, min_def, max_def, rC3]

/-- The blob-extraction output on the concrete contour `ct0`. -/
lemma boundMask_ct0 : boundMask eigDiag [ct0] [] = Except.ok [rC3] := by
  norm_num [boundMask, boundMaskGo, resize0, processContour, afterArea,
    aspectReject, fitRect, momentsOf, rawMoms, momStep, rawZero, ct0,
    covOf, eigDiag, projStep, dotQ, min_def, max_def, rC3]

/-- The concrete rectangle's angle evaluates to `-90` degrees. -/
lemma rC3_angle : rC3.angle = -90 := by
  have h : ((0:ℚ):ℝ) + ((1:ℚ):ℝ) * Complex.I = Complex.I := by
    push_cast
    ring
  rw [rC3]
  show angleOf (1, 0) = -90
  rw [angleOf, atan2R]
  norm_num [h, Complex.arg_I]
  field_simp
  ring

/-- The full pipeline output on the concrete frame and contour: the single
detection is `rC3`, unchanged by the corner stage because every corner
footprint is empty. -/
lemma detect_ct0 :
    detect id hsvQ0 rasterEmpty eigDiag (fun _ => [ct0]) s0 img0 [] =
      Except.ok [rC3] := by
  rw [detect]
  simp only [boundMask_ct0]
  rw [checkCorners]
  simp [adjustRect, cornerBools, cornerColored_rasterEmpty, cornersFlip,
    adjustAngle]

/-! ### Claim theorems -/

/-- C1 (counterexample): the claim says the 180° adjustment fires exactly
when one diagonal corner pair is non-marker-coloured and the other
marker-coloured.  At the corner booleans `c00 = false, c01 = true,
c10 = true, c11 = false` — the `{(-1,-1),(1,1)}` diagonal non-marker, the
`{(-1,1),(1,-1)}` diagonal marker, so the claim demands the adjustment —
the code's test (lines 264-267) does not fire and an angle of 0 is left
at 0 instead of becoming 180. -/
theorem checkCorners_diagonal_flip_counterexample :
    specFlipDiagonal false true true false = true ∧
    adjustAngle (cornersFlip false true true false) 0 = 0 ∧
    adjustAngle true 0 = 180 ∧ (0 : ℝ) ≠ 180 := by
  refine ⟨rfl, ?_, ?_, by norm_num⟩
  · rw [adjustAngle]
    norm_num [cornersFlip]
  · rw [adjustAngle, if_pos rfl]
    have h : fmodR (0 + 180) 360 = 0 + 180 :=
      fmodR_eq_self (by norm_num) (by norm_num)
    rw [h]
    norm_num

/-- C1 (amended): the 180° adjustment is applied exactly when the two
corners at negative offset along the first principal half-offset (sign
pairs `(-1,-1)` and `(-1,1)` — an edge pair, not a diagonal pair) are both
non-marker-coloured while the two corners at positive offset (`(1,-1)` and
`(1,1)`) are both marker-coloured; every other combination of the four
corner booleans leaves the angle unchanged. -/
theorem checkCorners_flip_rule :
    ∀ (sample : Window → Bool) (r : RRect),
      (adjustRect sample r).angle =
        if cornerBools sample r (-1) (-1) = false ∧
            cornerBools sample r (-1) 1 = false ∧
            cornerBools sample r 1 (-1) = true ∧
            cornerBools sample r 1 1 = true
        then fmodR (r.angle + 180) 360 else r.angle := by
  intro sample r
  cases h00 : cornerBools sample r (-1) (-1) <;>
    cases h01 : cornerBools sample r (-1) 1 <;>
      cases h10 : cornerBools sample r 1 (-1) <;>
        cases h11 : cornerBools sample r 1 1 <;>
          simp [adjustRect, adjustAngle, cornersFlip, h00, h01, h10, h11]

/-- C2 (code_bug): for a region whose extracted boundary contour has zero
points, the code does not raise the `"Empty contour"` error: all its
moments are zero, so the area filter at line 129 `continue`s before the
`!have_point` check at line 173 can run, and the region is silently
skipped — `boundMask` returns normally with no rectangle, against the
claim's (and the code's own dead `throw`'s) demand for an explicit
error. -/
theorem emptyContour_silently_skipped :
    processContour eigDiag [] = Except.ok none ∧
    boundMask eigDiag [([] : List Pt)] [] = Except.ok [] := by
  constructor
  · norm_num [processContour, momentsOf, rawMoms, rawZero]
  · norm_num [boundMask, boundMaskGo, resize0, processContour, momentsOf,
      rawMoms, rawZero]

/-- C4: a region is dropped at the area filter exactly when its zeroth
moment lies outside the band `[2000, 15000]`; when the moment lies inside
the band the region passes that filter and its outcome is decided by the
remaining (fit and aspect) processing alone. -/
theorem boundMask_area_band :
    ∀ (eig : EigFn) (ct : List Pt),
      ((momentsOf ct).m00 < 2000 ∨ (momentsOf ct).m00 > 15000 →
          processContour eig ct = Except.ok none) ∧
      (2000 ≤ (momentsOf ct).m00 → (momentsOf ct).m00 ≤ 15000 →
          processContour eig ct = afterArea eig ct) := by
  intro eig ct
  constructor
  · intro h
    rw [processContour, if_pos h]
  · intro h1 h2
    rw [processContour, if_neg]
    push_neg
    exact ⟨h1, h2⟩

/-- C4 (witness): the empty contour (zero area) is rejected by the area
filter, and the concrete contour `ct0` (area 3000) passes it. -/
theorem boundMask_area_band_witness :
    processContour eigDiag ([] : List Pt) = Except.ok none ∧
    processContour eigDiag ct0 = afterArea eigDiag ct0 := by
  constructor
  · exact (boundMask_area_band eigDiag []).1
      (Or.inl (by norm_num [momentsOf, rawMoms, rawZero]))
  · exact (boundMask_area_band eigDiag ct0).2
      (by norm_num [momentsOf, rawMoms, momStep, rawZero, ct0])
      (by norm_num [momentsOf, rawMoms, momStep, rawZero, ct0])

/-- C5: a fitted rectangle survives the aspect filter exactly when its
longer side is at most 4 times its shorter side, and is dropped exactly
when the longer side strictly exceeds 4 times the shorter side. -/
theorem boundMask_aspect_filter :
    ∀ (eig : EigFn) (ct : List Pt) (r : RRect),
      fitRect eig ct = some r →
      ((afterArea eig ct = Except.ok (some r) ↔
          max r.w r.h ≤ 4 * min r.w r.h) ∧
       (afterArea eig ct = Except.ok none ↔
          4 * min r.w r.h < max r.w r.h)) := by
  intro eig ct r h
  have hmin1 : min r.w r.h ≤ r.w := min_le_left _ _
  have hmin2 : min r.w r.h ≤ r.h := min_le_right _ _
  have hmax1 : r.w ≤ max r.w r.h := le_max_left _ _
  have hmax2 : r.h ≤ max r.w r.h := le_max_right _ _
  rw [afterArea, h]
  simp only []
  by_cases ha : aspectReject r = true
  · rw [if_pos ha]
    rw [aspectReject] at ha
    simp only [Bool.or_eq_true, decide_eq_true_eq] at ha
    have hlt : 4 * min r.w r.h < max r.w r.h := by
      rcases ha with hc | hc <;> linarith
    exact ⟨iff_of_false (by simp) (not_le.mpr hlt), iff_of_true rfl hlt⟩
  · rw [if_neg ha]
    rw [aspectReject] at ha
    simp only [Bool.or_eq_true, decide_eq_true_eq, not_or, not_lt] at ha
    have hle : max r.w r.h ≤ 4 * min r.w r.h := by
      rcases le_total r.w r.h with hwh | hwh
      · rw [max_eq_right hwh, min_eq_left hwh]
        linarith [ha.1]
      · rw [max_eq_left hwh, min_eq_right hwh]
        linarith [ha.2]
    exact ⟨iff_of_true rfl hle, iff_of_false (by simp) (not_lt.mpr hle)⟩

/-- C5 (witness): the concrete 30×100 rectangle fitted to `ct0` has ratio
100:30 ≤ 4 and passes the aspect filter. -/
theorem boundMask_aspect_filter_witness :
    afterArea eigDiag ct0 = Except.ok (some rC3) ∧
    max rC3.w rC3.h ≤ 4 * min rC3.w rC3.h := by
  have hle : max rC3.w rC3.h ≤ 4 * min rC3.w rC3.h := by
    norm_num [rC3, min_def, max_def]
  exact ⟨((boundMask_aspect_filter eigDiag ct0 rC3 fitRect_ct0).1).mpr hle, hle⟩

/-- C3 (counterexample): on the concrete wide axis-aligned blob `ct0` the
pipeline emits a detection whose angle is negative (−90°), both after blob
extraction and after orientation resolution, so detection angles do not
lie in `[0, 360)`. -/
theorem detect_angle_counterexample :
    detect id hsvQ0 rasterEmpty eigDiag (fun _ => [ct0]) s0 img0 [] =
        Except.ok [rC3] ∧
    boundMask eigDiag [ct0] [] = Except.ok [rC3] ∧
    rC3.angle < 0 := by
  refine ⟨detect_ct0, boundMask_ct0, ?_⟩
  rw [rC3_angle]
  norm_num

/-- C3 (amended): every detection's angle lies in `[-180, 180)` after blob
extraction (the range of `-atan2·180/π`), and in `[-180, 360)` after
orientation resolution (a fired 180° flip lands in `[0, 360)`, an unfired
one keeps the extraction angle). -/
theorem detect_angle_interval :
    (∀ (eig : EigFn) (ctrs : List (List Pt)) (init rects : List RRect),
        boundMask eig ctrs init = Except.ok rects →
        ∀ r ∈ rects, -180 ≤ r.angle ∧ r.angle < 180) ∧
    (∀ (rgb2hsv : Pix → Pix) (hsvQ : ℚ × ℚ × ℚ → Pix)
        (raster : Window → List Pt) (eig : EigFn)
        (contoursOf : MaskImg → List (List Pt))
        (s : RoombaEstimatorSettings) (img : Img)
        (init rects : List RRect),
        detect rgb2hsv hsvQ raster eig contoursOf s img init =
          Except.ok rects →
        ∀ r ∈ rects, -180 ≤ r.angle ∧ r.angle < 360) := by
  have hbm : ∀ (eig : EigFn) (ctrs : List (List Pt)) (init rects : List RRect),
      boundMask eig ctrs init = Except.ok rects →
      ∀ r ∈ rects, -180 ≤ r.angle ∧ r.angle < 180 := by
    intro eig ctrs init rects h r hr
    rw [boundMask] at h
    rcases boundMaskGo_ok_mem h r hr with hmem | ⟨v, hv⟩
    · rw [resize0, List.take_zero] at hmem
      cases hmem
    · rw [hv]
      exact angleOf_range v
  refine ⟨hbm, ?_⟩
  intro rgb2hsv hsvQ raster eig contoursOf s img init rects h r hr
  rw [detect] at h
  rcases hb : boundMask eig
      (contoursOf (thresholdFrame rgb2hsv s img freshMask)) init with e | rects0
  · rw [hb] at h
    cases h
  · rw [hb] at h
    simp only [Except.ok.injEq] at h
    subst h
    rw [checkCorners] at hr
    rcases List.mem_map.mp hr with ⟨r0, hr0, hadj⟩
    have hr0b := hbm eig _ init rects0 hb r0 hr0
    subst hadj
    have : (adjustRect (cornerColored hsvQ s raster img) r0).angle =
        adjustAngle
          (cornersFlip
            (cornerBools (cornerColored hsvQ s raster img) r0 (-1) (-1))
            (cornerBools (cornerColored hsvQ s raster img) r0 (-1) 1)
            (cornerBools (cornerColored hsvQ s raster img) r0 1 (-1))
            (cornerBools (cornerColored hsvQ s raster img) r0 1 1))
          r0.angle := rfl
    rw [this]
    exact adjustAngle_range _ hr0b

/-- C3 (amended, witness): the amended bound applied to the concrete
pipeline run producing the single detection `rC3`. -/
theorem detect_angle_interval_witness :
    -180 ≤ rC3.angle ∧ rC3.angle < 360 :=
  detect_angle_interval.2 id hsvQ0 rasterEmpty eigDiag (fun _ => [ct0])
    s0 img0 [] [rC3] detect_ct0 rC3 (by simp)

/-- C6: orientation resolution returns the input rectangles pairwise in
order (so with the same length): centre and size are unchanged, and each
angle is either unchanged or replaced by `fmod(angle + 180, 360)`. -/
theorem checkCorners_same_rects :
    ∀ (sample : Window → Bool) (rects : List RRect),
      (checkCorners sample rects).length = rects.length ∧
      List.Forall₂
        (fun r r' => r'.cx = r.cx ∧ r'.cy = r.cy ∧ r'.w = r.w ∧
          r'.h = r.h ∧
          (r'.angle = r.angle ∨ r'.angle = fmodR (r.angle + 180) 360))
        rects (checkCorners sample rects) := by
  intro sample rects
  constructor
  · rw [checkCorners, List.length_map]
  · rw [checkCorners]
    induction rects with
    | nil => exact List.Forall₂.nil
    | cons r rs ih =>
        rw [List.map_cons]
        refine List.Forall₂.cons ⟨rfl, rfl, rfl, rfl, ?_⟩ ih
        cases hf : cornersFlip
            (cornerBools sample r (-1) (-1)) (cornerBools sample r (-1) 1)
            (cornerBools sample r 1 (-1)) (cornerBools sample r 1 1) with
        | false =>
            left
            simp [adjustRect, adjustAngle, hf]
        | true =>
            right
            simp [adjustRect, adjustAngle, hf]

/-- C7: before the morphological opening, a pixel of the accumulated mask
is set iff its converted hue/saturation/value sample passes at least one
of the three slice tests, each an inclusive hue range combined with the
shared inclusive saturation and value bounds. -/
theorem thresholdFrame_slice_membership :
    ∀ (rgb2hsv : Pix → Pix) (s : RoombaEstimatorSettings) (img : Img)
      (dst : MaskImg) (x y : ℤ),
      (thresholdPre rgb2hsv s img dst).px x y = true ↔
        ((s.hsv_slice_h_green_min ≤ (rgb2hsv (img.px x y)).1 ∧
            (rgb2hsv (img.px x y)).1 ≤ s.hsv_slice_h_green_max ∧
            s.hsv_slice_s_min ≤ (rgb2hsv (img.px x y)).2.1 ∧
            (rgb2hsv (img.px x y)).2.1 ≤ s.hsv_slice_s_max ∧
            s.hsv_slice_v_min ≤ (rgb2hsv (img.px x y)).2.2 ∧
            (rgb2hsv (img.px x y)).2.2 ≤ s.hsv_slice_v_max) ∨
         (s.hsv_slice_h_red1_min ≤ (rgb2hsv (img.px x y)).1 ∧
            (rgb2hsv (img.px x y)).1 ≤ s.hsv_slice_h_red1_max ∧
            s.hsv_slice_s_min ≤ (rgb2hsv (img.px x y)).2.1 ∧
            (rgb2hsv (img.px x y)).2.1 ≤ s.hsv_slice_s_max ∧
            s.hsv_slice_v_min ≤ (rgb2hsv (img.px x y)).2.2 ∧
            (rgb2hsv (img.px x y)).2.2 ≤ s.hsv_slice_v_max) ∨
         (s.hsv_slice_h_red2_min ≤ (rgb2hsv (img.px x y)).1 ∧
            (rgb2hsv (img.px x y)).1 ≤ s.hsv_slice_h_red2_max ∧
            s.hsv_slice_s_min ≤ (rgb2hsv (img.px x y)).2.1 ∧
            (rgb2hsv (img.px x y)).2.1 ≤ s.hsv_slice_s_max ∧
            s.hsv_slice_v_min ≤ (rgb2hsv (img.px x y)).2.2 ∧
            (rgb2hsv (img.px x y)).2.2 ≤ s.hsv_slice_v_max)) := by
  intro rgb2hsv s img dst x y
  simp only [thresholdPre, orInto, setToZero, inRange3, greenLo, greenHi,
    red1Lo, red1Hi, red2Lo, red2Hi, Bool.false_or, Bool.or_eq_true,
    Bool.and_eq_true, decide_eq_true_eq]
  tauto

/-- C8: a corner's boolean is set iff the clipped window footprint is
nonempty and the converted average of the raw frame colours over that
footprint passes the three-slice membership test. -/
theorem checkCorners_corner_average :
    ∀ (hsvQ : ℚ × ℚ × ℚ → Pix) (s : RoombaEstimatorSettings)
      (raster : Window → List Pt) (img : Img) (w : Window),
      cornerColored hsvQ s raster img w = true ↔
        (footprint raster img w ≠ [] ∧
         patchGood s (hsvQ (avgPix img (footprint raster img w))) = true) := by
  intro hsvQ s raster img w
  rw [cornerColored, sumPatch]
  by_cases hfp : footprint raster img w = []
  · simp [hfp]
  · simp [hfp]

/-- C9: the colour-mask stage is a pure function of frame and settings —
two invocations with differently pre-filled destination buffers produce
identical masks, because the buffer is recreated at the frame's geometry
and cleared before any slice is written. -/
theorem thresholdFrame_deterministic :
    ∀ (rgb2hsv : Pix → Pix) (s : RoombaEstimatorSettings) (img : Img)
      (d1 d2 : MaskImg),
      thresholdFrame rgb2hsv s img d1 = thresholdFrame rgb2hsv s img d2 := by
  intro rgb2hsv s img d1 d2
  simp only [thresholdFrame, thresholdPre, setToZero_createBuf]

/-- C10: the blob-extraction stage clears the caller's output vector
before writing (line 124), so neither the extraction result nor the full
`detect` result depends on the vector's pre-existing contents. -/
theorem detect_ignores_initial_contents :
    ∀ (rgb2hsv : Pix → Pix) (hsvQ : ℚ × ℚ × ℚ → Pix)
      (raster : Window → List Pt) (eig : EigFn)
      (contoursOf : MaskImg → List (List Pt))
      (s : RoombaEstimatorSettings) (img : Img)
      (init1 init2 : List RRect),
      (∀ ctrs, boundMask eig ctrs init1 = boundMask eig ctrs init2) ∧
      detect rgb2hsv hsvQ raster eig contoursOf s img init1 =
        detect rgb2hsv hsvQ raster eig contoursOf s img init2 := by
  intro rgb2hsv hsvQ raster eig contoursOf s img init1 init2
  have hbm : ∀ ctrs, boundMask eig ctrs init1 = boundMask eig ctrs init2 := by
    intro ctrs
    simp only [boundMask, resize0, List.take_zero]
  exact ⟨hbm, by rw [detect, detect, hbm]⟩

end Iarc7Vision
